import Mathlib

/-!
Verification of the event-stream-video repository against its specification.

The repository has two halves:
* a Go ingestion server (`internal/models/models.go`, `internal/logger`,
  `internal/api/handlers.go`): decodes `EventBatch` JSON and appends the
  contained events to an append-only log file;
* a browser SDK (`video-analytics.js`): collects playback events, batches
  them, retries failed sends with exponential backoff, and performs a final
  beacon send on page unload.

This file shallowly embeds both halves.  JSON values are modelled by an
inductive `Json` type (numbers as rationals, objects as association lists in
emission order; Go serialises struct fields in declaration order, which the
encoders below follow).  The SDK module-level mutable state becomes an
explicit `SDKState` record, and each JS function becomes a pure state
transformer; asynchronous send completions are modelled as the completion
callbacks applied to the state, per the single-threaded event-loop model of
the spec.
-/

/-- JSON values.  The Go `map[string]interface{}` fields of `Event` are
represented by the association list of an `obj`; numbers are rationals. -/
inductive Json where
  | null : Json
  | bool (b : Bool) : Json
  | num (q : Rat) : Json
  | str (s : String) : Json
  | arr (xs : List Json) : Json
  | obj (fields : List (String × Json)) : Json

/-- Go struct `models.Event` (internal/models): one playback occurrence.
`PlaybackState`, `Technical`, `Context` are `map[string]interface{}` in Go;
they are modelled as association lists of raw JSON values. -/
structure Event where
  eventName : String
  videoId : String
  timestamp : String
  sessionId : String
  userId : String
  anonymousId : String
  playbackState : List (String × Json)
  technical : List (String × Json)
  context : List (String × Json)
  customData : String

/-- Go struct `models.EventBatch` (internal/models): the unit of
transmission.  Fields exactly as declared in the Go source: `ClientID`,
`APIKey`, `SessionID`, `BatchID`, `Events`, `Timestamp`, `IsRetry`
(`omitempty`).  Note the Go struct declares no `retryAttempt` field. -/
structure EventBatch where
  clientId : String
  apiKey : String
  sessionId : String
  batchId : String
  events : List Event
  timestamp : String
  isRetry : Bool

/-- Go `json.Marshal` of a `models.Event`: struct fields in declaration order,
with `customData,omitempty` dropped when it is the zero value "". -/
def encodeEvent (e : Event) : Json :=
  Json.obj ([("eventName", Json.str e.eventName),
    ("videoId", Json.str e.videoId),
    ("timestamp", Json.str e.timestamp),
    ("sessionId", Json.str e.sessionId),
    ("userId", Json.str e.userId),
    ("anonymousId", Json.str e.anonymousId),
    ("playbackState", Json.obj e.playbackState),
    ("technical", Json.obj e.technical),
    ("context", Json.obj e.context)] ++
    (if e.customData = "" then [] else [("customData", Json.str e.customData)]))

/-- Go `json.Marshal` of a `models.EventBatch`: struct fields in declaration
order, with `isRetry,omitempty` dropped when false. -/
def encodeEventBatch (b : EventBatch) : Json :=
  Json.obj ([("clientId", Json.str b.clientId),
    ("apiKey", Json.str b.apiKey),
    ("sessionId", Json.str b.sessionId),
    ("batchId", Json.str b.batchId),
    ("events", Json.arr (b.events.map encodeEvent)),
    ("timestamp", Json.str b.timestamp)] ++
    (if b.isRetry then [("isRetry", Json.bool true)] else []))

/-- Field lookup in a decoded JSON object, as `encoding/json` matches struct
tags against object keys. -/
def jsonLookup (fields : List (String × Json)) (key : String) : Option Json :=
  match fields with
  | [] => none
  | (k, v) :: rest => if k = key then some v else jsonLookup rest key

/-- Unmarshal a string-typed struct field: a missing key or JSON `null`
leaves the Go zero value ""; a non-string value is a decode error. -/
def getStr (fields : List (String × Json)) (key : String) : Option String :=
  match jsonLookup fields key with
  | none => some ""
  | some (Json.str s) => some s
  | some Json.null => some ""
  | some _ => none

/-- Unmarshal a bool-typed struct field (zero value `false`). -/
def getBool (fields : List (String × Json)) (key : String) : Option Bool :=
  match jsonLookup fields key with
  | none => some false
  | some (Json.bool b) => some b
  | some Json.null => some false
  | some _ => none

/-- Unmarshal a `map[string]interface{}` struct field (zero value: nil map,
modelled as the empty association list). -/
def getMap (fields : List (String × Json)) (key : String) :
    Option (List (String × Json)) :=
  match jsonLookup fields key with
  | none => some []
  | some (Json.obj o) => some o
  | some Json.null => some []
  | some _ => none

/-- Unmarshal a slice-typed struct field (zero value: nil slice). -/
def getArr (fields : List (String × Json)) (key : String) :
    Option (List Json) :=
  match jsonLookup fields key with
  | none => some []
  | some (Json.arr xs) => some xs
  | some Json.null => some []
  | some _ => none

/-- Go `json.Unmarshal` into a `models.Event`: unknown object keys are ignored,
missing keys take Go zero values, type mismatches are errors. -/
def decodeEvent (j : Json) : Option Event :=
  match j with
  | Json.obj fields => do
      let eventName ← getStr fields "eventName"
      let videoId ← getStr fields "videoId"
      let timestamp ← getStr fields "timestamp"
      let sessionId ← getStr fields "sessionId"
      let userId ← getStr fields "userId"
      let anonymousId ← getStr fields "anonymousId"
      let playbackState ← getMap fields "playbackState"
      let technical ← getMap fields "technical"
      let context ← getMap fields "context"
      let customData ← getStr fields "customData"
      some ⟨eventName, videoId, timestamp, sessionId, userId, anonymousId,
        playbackState, technical, context, customData⟩
  | _ => none

/-- Go `json.Unmarshal` into a `models.EventBatch`.  An object key such as
"retryAttempt", matching no struct field, is silently ignored. -/
def decodeEventBatch (j : Json) : Option EventBatch :=
  match j with
  | Json.obj fields => do
      let clientId ← getStr fields "clientId"
      let apiKey ← getStr fields "apiKey"
      let sessionId ← getStr fields "sessionId"
      let batchId ← getStr fields "batchId"
      let eventsJson ← getArr fields "events"
      let events ← eventsJson.mapM decodeEvent
      let timestamp ← getStr fields "timestamp"
      let isRetry ← getBool fields "isRetry"
      some ⟨clientId, apiKey, sessionId, batchId, events, timestamp, isRetry⟩
  | _ => none

/-! ### The Go logger (`internal/logger/logger.go`)

`EventLogger` holds an append-only log file.  `logEvent` performs two file
writes (the marshalled event JSON, then a `"\n\n"` separator); `LogBatch`
writes one batch-header line and then logs each event in order, returning
at the first error.  Marshalling a `models.Event` cannot fail (its fields
contain no unmarshalable Go values), so the fallible operations are the
file writes.  The log file is modelled as the list of appended records, and
the write device by a threshold `failAt`: the first `failAt` write calls
succeed and every later one fails, modelling a device that fails at some
point and stays failed. -/

/-- One append to the log file: the batch-header line written by
`LogBatch`, the marshalled event JSON written by `logEvent`, or the
`"\n\n"` separator written after it. -/
inductive LogRecord where
  | header (clientId sessionId batchId : String) : LogRecord
  | eventJson (e : Event) : LogRecord
  | lineBreaks : LogRecord

/-- State of the log file together with the write device. -/
structure LogState where
  records : List LogRecord
  written : Nat
  failAt : Nat

/-- One `Write`/`WriteString` call on the log file: appends the record and
reports success, or fails once `failAt` writes have been attempted. -/
def logWrite (r : LogRecord) (st : LogState) : LogState × Bool :=
  if st.written < st.failAt then
    ({ st with records := st.records ++ [r], written := st.written + 1 }, true)
  else
    ({ st with written := st.written + 1 }, false)

/-- Method `EventLogger.logEvent`: write the marshalled event, then the two line
breaks, returning at the first failed write. -/
def logEvent (e : Event) (st : LogState) : LogState × Bool :=
  let (st1, ok1) := logWrite (LogRecord.eventJson e) st
  if ok1 then logWrite LogRecord.lineBreaks st1 else (st1, false)

/-- The loop of `EventLogger.LogBatch` over `batch.Events`: log each event
in order, returning at the first error. -/
def logEvents (es : List Event) (st : LogState) : LogState × Bool :=
  match es with
  | [] => (st, true)
  | e :: rest =>
      let (st1, ok) := logEvent e st
      if ok then logEvents rest st1 else (st1, false)

/-- Method `EventLogger.LogBatch`: write the batch-header line, then log the
contained events in order, returning at the first error.  Nothing is rolled
back on error. -/
def LogBatch (batch : EventBatch) (st : LogState) : LogState × Bool :=
  let (st1, ok) :=
    logWrite (LogRecord.header batch.clientId batch.sessionId batch.batchId) st
  if ok then logEvents batch.events st1 else (st1, false)

/-! ### The Go HTTP handlers (`internal/api/handlers.go`) -/

/-- An inbound HTTP request as the handlers observe it: the method string
and the body.  `body = none` models a body whose JSON is syntactically
malformed (the `json.Decoder` fails before producing any value); a body
that is well-formed JSON but does not decode into `models.EventBatch` is
also a decode error, handled via `decodeEventBatch`. -/
structure Request where
  method : String
  body : Option Json

/-- What the handler wrote into the `http.ResponseWriter`. -/
inductive RespBody where
  | empty : RespBody
  | text (s : String) : RespBody
  | jsonAck (status message : String) : RespBody

/-- An HTTP response: status code and body. -/
structure Response where
  status : Nat
  body : RespBody

/-- Decoding the request body into a `models.EventBatch`, as
`decoder.Decode(&batch)` does: fails on malformed JSON or on a value that
does not fit the struct. -/
def decodeBody (r : Request) : Option EventBatch :=
  match r.body with
  | none => none
  | some j => decodeEventBatch j

/-- Handler `EventHandler.HandleEvents` (the synchronous endpoint): non-POST →
405; undecodable body → 400; `LogBatch` error → 500; otherwise 200 with
the JSON `{status, message}` ack. -/
def HandleEvents (r : Request) (st : LogState) : Response × LogState :=
  if r.method ≠ "POST" then
    (⟨405, RespBody.text "Method not allowed"⟩, st)
  else
    match decodeBody r with
    | none => (⟨400, RespBody.text "Invalid request body"⟩, st)
    | some batch =>
        let (st1, ok) := LogBatch batch st
        if ok then
          (⟨200, RespBody.jsonAck "success"
            ("Processed " ++ toString batch.events.length ++ " events")⟩, st1)
        else
          (⟨500, RespBody.text "Internal server error"⟩, st1)

/-- Handler `EventHandler.HandleBeacons` (the beacon endpoint): non-POST → 405; on
a decode or logging error the handler only logs to the console and returns
without writing a status, so Go sends the implicit 200 with an empty body;
on success it writes 204 No Content. -/
def HandleBeacons (r : Request) (st : LogState) : Response × LogState :=
  if r.method ≠ "POST" then
    (⟨405, RespBody.text "Method not allowed"⟩, st)
  else
    match decodeBody r with
    | none => (⟨200, RespBody.empty⟩, st)
    | some batch =>
        let (st1, ok) := LogBatch batch st
        if ok then (⟨204, RespBody.empty⟩, st1)
        else (⟨200, RespBody.empty⟩, st1)

/-! ### The browser SDK (`video-analytics.js`)

The SDK module-level mutable variables `eventQueue`, `retryQueue`,
`retryAttempt` and `retryTimeout` become the fields of `SDKState`.  Events
are modelled by their name together with an uninterpreted payload standing for the
enrichment data (timestamps, playback snapshot, identifiers): the queueing
and retry logic never inspects anything but the name.  Each JS function
becomes a pure state transformer; a function that hands a snapshot of
events to the transport returns it as an `Option (List JSEvent)`.  The
`.then`/`.catch` completion callbacks of the asynchronous sends become the
`onSendSuccess`/`onSendFailure`/`onRetrySuccess`/`onRetryFailure`
transformers, executed as discrete tasks per the single-threaded event-loop
model of the spec. -/

/-- A client-side event as the queueing logic sees it: its name, plus an
uninterpreted payload standing for the enrichment fields built in `trackEvent`. -/
structure JSEvent where
  eventName : String
  payload : Json

/-- The SDK configuration fields the delivery core reads. -/
structure Config where
  batchSize : Nat
  batchInterval : Nat
  sampleRateTimeupdate : Rat

/-- Defaults `DEFAULT_CONFIG`: batchSize 15, batchInterval 5000 ms, timeupdate
sample rate 0.2. -/
def defaultConfig : Config :=
  { batchSize := 15, batchInterval := 5000, sampleRateTimeupdate := 1 / 5 }

/-- The SDK module-level mutable state: the pending queue, the retry
queue, the shared retry-attempt counter, and whether a retry timer is armed
(`retryTimeout` is non-null in the JS). -/
structure SDKState where
  eventQueue : List JSEvent
  retryQueue : List JSEvent
  retryAttempt : Nat
  retryTimeout : Bool

/-- The state right after `init`: empty queues, counter 0, no timer. -/
def initState : SDKState :=
  { eventQueue := [], retryQueue := [], retryAttempt := 0,
    retryTimeout := false }

/-- The backoff delay computed in `scheduleRetry`:
`Math.min(1000 * Math.pow(2, retryAttempt), 30000)`. -/
def retryDelay (attempt : Nat) : Nat :=
  min (1000 * 2 ^ attempt) 30000

/-- Function `scheduleRetry`: if a retry timer is already armed, return at once;
otherwise increment the attempt counter, compute the backoff delay from the
incremented counter and arm the timer.  The armed delay is returned for
observation (`none` when the call was the idempotent no-op). -/
def scheduleRetry (s : SDKState) : SDKState × Option Nat :=
  if s.retryTimeout then (s, none)
  else
    ({ s with retryAttempt := s.retryAttempt + 1, retryTimeout := true },
      some (retryDelay (s.retryAttempt + 1)))

/-- The synchronous part of `sendBatch`: an empty pending queue is a no-op;
otherwise the queue is swapped for an empty one and the captured snapshot
is handed to the transport. -/
def sendBatchStart (s : SDKState) : SDKState × Option (List JSEvent) :=
  if s.eventQueue.isEmpty then (s, none)
  else ({ s with eventQueue := [] }, some s.eventQueue)

/-- The `.then` callback of `sendBatch`: reset the retry counter. -/
def onSendSuccess (s : SDKState) : SDKState :=
  { s with retryAttempt := 0 }

/-- The `.catch` callback of `sendBatch`: push the failed events onto the
retry queue and call `scheduleRetry`. -/
def onSendFailure (events : List JSEvent) (s : SDKState) : SDKState :=
  (scheduleRetry { s with retryQueue := s.retryQueue ++ events }).1

/-- The priority event names that trigger an immediate flush in
`trackEvent`. -/
def priorityEvents : List String := ["play", "pause", "ended", "error"]

/-- Function `trackEvent` for an initialized SDK and a tracked player, after the
event object has been assembled: push the event onto the pending queue,
then flush via `sendBatch` if the name is in the priority set or the queue
has reached `config.batchSize`.  Returns the snapshot handed to the
transport, `none` when no flush happened. -/
def trackEvent (cfg : Config) (e : JSEvent) (s : SDKState) :
    SDKState × Option (List JSEvent) :=
  let s1 := { s with eventQueue := s.eventQueue ++ [e] }
  if priorityEvents.contains e.eventName ∨ cfg.batchSize ≤ s1.eventQueue.length
  then sendBatchStart s1
  else (s1, none)

/-- A sequence of `trackEvent` calls, collecting every snapshot handed to
the transport. -/
def trackMany (cfg : Config) (es : List JSEvent) (s : SDKState) :
    SDKState × List (List JSEvent) :=
  match es with
  | [] => (s, [])
  | e :: rest =>
      let (s1, sent) := trackEvent cfg e s
      let (s2, sents) := trackMany cfg rest s1
      (s2, (match sent with | none => [] | some evs => [evs]) ++ sents)

/-- The retry timer firing: the JS callback first nulls `retryTimeout`,
then calls `attemptRetry`. -/
def timerFire (s : SDKState) : SDKState :=
  { s with retryTimeout := false }

/-- The synchronous part of `attemptRetry`: an empty retry queue abandons
the cycle; otherwise the retry queue is swapped for an empty one and the
snapshot is sent with `isRetry` set. -/
def attemptRetryStart (s : SDKState) : SDKState × Option (List JSEvent) :=
  if s.retryQueue.isEmpty then (s, none)
  else ({ s with retryQueue := [] }, some s.retryQueue)

/-- The `.then` callback of `attemptRetry`: reset the retry counter. -/
def onRetrySuccess (s : SDKState) : SDKState :=
  { s with retryAttempt := 0 }

/-- The `.catch` callback of `attemptRetry`: with the attempt counter at 5
or more, drop the events and reset the counter; otherwise push the events
back onto the retry queue and reschedule. -/
def onRetryFailure (events : List JSEvent) (s : SDKState) : SDKState :=
  if 5 ≤ s.retryAttempt then { s with retryAttempt := 0 }
  else (scheduleRetry { s with retryQueue := s.retryQueue ++ events }).1

/-- Function `handlePageUnload`: combine the pending and retry queues; if the
combination is empty, return without sending; otherwise append one
synthetic `pageUnload` event (whose enrichment payload is the supplied
`finalPayload`) and hand the whole list to `navigator.sendBeacon`.
Returns the event list of the beacon payload, `none` when no beacon is
sent. -/
def handlePageUnload (s : SDKState) (finalPayload : Json) :
    Option (List JSEvent) :=
  let allEvents := s.eventQueue ++ s.retryQueue
  if allEvents.isEmpty then none
  else some (allEvents ++ [⟨"pageUnload", finalPayload⟩])

/-- Per-player tracking metadata stored in the `trackedPlayers` map. -/
structure PlayerData where
  videoId : String
  lastTimeupdateTracked : Int

/-- The `timeupdate` listener installed by `trackPlayer`: the tick is
accepted iff the random draw is below `config.sampleRate.timeupdate` AND
strictly more than 500 ms have elapsed since the last accepted tick
(`now - playerData.lastTimeupdateTracked > 500`); on acceptance the
metadata field `lastTimeupdateTracked` is updated to `now` and the event is
tracked.  Returns the updated metadata and whether the tick was accepted. -/
def onTimeupdate (cfg : Config) (rand : Rat) (now : Int) (pd : PlayerData) :
    PlayerData × Bool :=
  if rand < cfg.sampleRateTimeupdate ∧ 500 < now - pd.lastTimeupdateTracked
  then ({ pd with lastTimeupdateTracked := now }, true)
  else (pd, false)

/-! ### The event-loop model

Per §5 of the spec, the SDK runs on a single logical thread: event
callbacks, the periodic flush timer, the retry timer and send completions
execute as discrete, non-overlapping tasks.  Transport sends are
asynchronous: between the task that issues a `fetch` and the task that
runs its `.then`/`.catch` callback, other tasks may run — the in-flight
window.  `LoopState` therefore carries, next to the SDK variables, the
snapshots handed to the transport whose completions are still
outstanding, and a `LoopStep` is one task: an SDK callback, a timer
firing, or the delivery of one outstanding completion, in any order. -/

/-- The outcome of an asynchronous transport send: a 2xx response, or a
non-2xx response or network error (`TransportFailure`). -/
inductive SendOutcome where
  | ok : SendOutcome
  | fail : SendOutcome

/-- Apply the completion callbacks of `sendBatch` to the snapshot it handed
to the transport (no snapshot: no send, hence no completion). -/
def flushOutcome (o : SendOutcome) (r : SDKState × Option (List JSEvent)) :
    SDKState :=
  match r.2 with
  | none => r.1
  | some evs =>
      match o with
      | SendOutcome.ok => onSendSuccess r.1
      | SendOutcome.fail => onSendFailure evs r.1

/-- Apply the completion callbacks of `attemptRetry` to the snapshot it
sent (no snapshot: the cycle was abandoned silently). -/
def retryOutcome (o : SendOutcome) (r : SDKState × Option (List JSEvent)) :
    SDKState :=
  match r.2 with
  | none => r.1
  | some evs =>
      match o with
      | SendOutcome.ok => onRetrySuccess r.1
      | SendOutcome.fail => onRetryFailure evs r.1

/-- A state of the event loop: the SDK variables together with the event
snapshots of the outstanding transport sends (batch sends issued by
`sendBatch`, retry sends issued by `attemptRetry`) whose completion
callbacks have not yet run. -/
structure LoopState where
  sdk : SDKState
  pendingSends : List (List JSEvent)
  pendingRetries : List (List JSEvent)

/-- A `trackEvent` callback as one event-loop task: if it flushes, the
captured snapshot becomes an outstanding batch send. -/
def applyTrack (cfg : Config) (e : JSEvent) (t : LoopState) : LoopState :=
  let r := trackEvent cfg e t.sdk
  ⟨r.1, t.pendingSends ++ (match r.2 with | none => [] | some evs => [evs]),
    t.pendingRetries⟩

/-- The periodic flush timer as one event-loop task. -/
def applyTimerFlush (t : LoopState) : LoopState :=
  let r := sendBatchStart t.sdk
  ⟨r.1, t.pendingSends ++ (match r.2 with | none => [] | some evs => [evs]),
    t.pendingRetries⟩

/-- The retry timer firing as one event-loop task: the callback nulls
`retryTimeout` and runs `attemptRetry`; the captured snapshot, if any,
becomes an outstanding retry send. -/
def applyRetryTimer (t : LoopState) : LoopState :=
  let r := attemptRetryStart (timerFire t.sdk)
  ⟨r.1, t.pendingSends,
    t.pendingRetries ++ (match r.2 with | none => [] | some evs => [evs])⟩

/-- Delivery of the completion of one outstanding batch send (the
`.then`/`.catch` of `sendBatch` running as its own task). -/
def applySendComplete (o : SendOutcome) (evs : List JSEvent)
    (pre post : List (List JSEvent)) (t : LoopState) : LoopState :=
  ⟨match o with
    | SendOutcome.ok => onSendSuccess t.sdk
    | SendOutcome.fail => onSendFailure evs t.sdk,
    pre ++ post, t.pendingRetries⟩

/-- Delivery of the completion of one outstanding retry send (the
`.then`/`.catch` of `attemptRetry` running as its own task). -/
def applyRetryComplete (o : SendOutcome) (evs : List JSEvent)
    (pre post : List (List JSEvent)) (t : LoopState) : LoopState :=
  ⟨match o with
    | SendOutcome.ok => onRetrySuccess t.sdk
    | SendOutcome.fail => onRetryFailure evs t.sdk,
    t.pendingSends, pre ++ post⟩

/-- One event-loop task.  Completions of outstanding sends may be
delivered at any later point and in any order, so other tasks can run
inside an in-flight window. -/
inductive LoopStep : LoopState → LoopState → Prop where
  | track (cfg : Config) (e : JSEvent) (t : LoopState) :
      LoopStep t (applyTrack cfg e t)
  | timerFlush (t : LoopState) : LoopStep t (applyTimerFlush t)
  | retryTimer (t : LoopState) (h : t.sdk.retryTimeout = true) :
      LoopStep t (applyRetryTimer t)
  | sendComplete (o : SendOutcome) (evs : List JSEvent)
      (pre post : List (List JSEvent)) (t : LoopState)
      (h : t.pendingSends = pre ++ evs :: post) :
      LoopStep t (applySendComplete o evs pre post t)
  | retryComplete (o : SendOutcome) (evs : List JSEvent)
      (pre post : List (List JSEvent)) (t : LoopState)
      (h : t.pendingRetries = pre ++ evs :: post) :
      LoopStep t (applyRetryComplete o evs pre post t)

/-- Event-loop states reachable from the post-`init` state (which has no
outstanding sends). -/
inductive LoopReachable : LoopState → Prop where
  | init : LoopReachable ⟨initState, [], []⟩
  | step {t t' : LoopState} : LoopReachable t → LoopStep t t' → LoopReachable t'

/-! ### The sequential schedule

`SeqStep` restricts the event loop to the schedules in which the
completion of each transport send is delivered immediately after the task
that issued it, so no task ever runs inside an in-flight window.  Each
`SeqStep` is realized by one or two consecutive `LoopStep`s
(`seqStep_loop`), so sequentially reachable SDK states are reachable
event-loop states.  The retry-attempt bound of C2 holds on this schedule
and fails off it: `retryAttempt_reaches_six` drives the shared counter to
6 by completing a failed batch send inside the in-flight window of the
fifth retry. -/

/-- One sequential task: an SDK callback or timer together with the
immediately delivered completion of the send it issued, if any. -/
inductive SeqStep : SDKState → SDKState → Prop where
  | track (cfg : Config) (e : JSEvent) (o : SendOutcome) (s : SDKState) :
      SeqStep s (flushOutcome o (trackEvent cfg e s))
  | timerFlush (o : SendOutcome) (s : SDKState) :
      SeqStep s (flushOutcome o (sendBatchStart s))
  | retryTimer (o : SendOutcome) (s : SDKState) (h : s.retryTimeout = true) :
      SeqStep s (retryOutcome o (attemptRetryStart (timerFire s)))

/-- SDK states reachable from the post-`init` state under the sequential
schedule. -/
inductive SeqReachable : SDKState → Prop where
  | init : SeqReachable initState
  | step {s s' : SDKState} : SeqReachable s → SeqStep s s' → SeqReachable s'

/-! ### Helper lemmas -/

theorem decodeEvent_encodeEvent (e : Event) :
    decodeEvent (encodeEvent e) = some e := by
  obtain ⟨en, vid, ts, sid, uid, aid, ps, tech, ctx, cd⟩ := e
  by_cases hc : cd = ""
  · subst hc
    simp only [encodeEvent, if_pos rfl]
    rfl
  · simp only [encodeEvent, if_neg hc]
    rfl

theorem mapM_loop_decode_encode (es : List Event) (acc : List Event) :
    List.mapM.loop decodeEvent (es.map encodeEvent) acc =
      some (acc.reverse ++ es) := by
  induction es generalizing acc with
  | nil => simp [List.mapM.loop]
  | cons e rest ih => simp [List.mapM.loop, decodeEvent_encodeEvent, ih]

/-! ### Claim theorems -/

/-- C1: In every retry-scheduling step that actually arms the timer (no
timer already armed), the attempt counter is incremented and the armed
backoff delay equals `min(1000 * 2^n, 30000)` ms for the incremented
counter value `n`; for attempts 1 through 5 this gives exactly 2000, 4000,
8000, 16000, 30000 ms. -/
theorem scheduleRetry_backoff (s : SDKState) (h : s.retryTimeout = false) :
    (scheduleRetry s).1.retryAttempt = s.retryAttempt + 1 ∧
    (scheduleRetry s).2 = some (min (1000 * 2 ^ (s.retryAttempt + 1)) 30000) ∧
    retryDelay 1 = 2000 ∧ retryDelay 2 = 4000 ∧ retryDelay 3 = 8000 ∧
    retryDelay 4 = 16000 ∧ retryDelay 5 = 30000 := by
  refine ⟨?_, ?_, by decide, by decide, by decide, by decide, by decide⟩ <;>
    simp [scheduleRetry, h, retryDelay]

theorem scheduleRetry_backoff_witness :
    (scheduleRetry initState).1.retryAttempt = initState.retryAttempt + 1 ∧
    (scheduleRetry initState).2 =
      some (min (1000 * 2 ^ (initState.retryAttempt + 1)) 30000) ∧
    retryDelay 1 = 2000 ∧ retryDelay 2 = 4000 ∧ retryDelay 3 = 8000 ∧
    retryDelay 4 = 16000 ∧ retryDelay 5 = 30000 :=
  scheduleRetry_backoff initState rfl

/-- C3: From every pending-queue state (the empty queue included),
tracking an event whose name is in the priority set {play, pause, ended,
error} appends the event and flushes in the same step: `sendBatch` is
handed the whole queue including the new event, and the pending queue is
empty afterwards. -/
theorem trackEvent_priority_flush (cfg : Config) (e : JSEvent) (s : SDKState)
    (h : e.eventName ∈ priorityEvents) :
    trackEvent cfg e s =
      ({ s with eventQueue := [] }, some (s.eventQueue ++ [e])) := by
  simp [trackEvent, h, sendBatchStart]

theorem trackEvent_priority_flush_witness :
    trackEvent defaultConfig ⟨"play", Json.null⟩ initState =
      ({ initState with eventQueue := [] },
        some (initState.eventQueue ++ [⟨"play", Json.null⟩])) :=
  trackEvent_priority_flush defaultConfig ⟨"play", Json.null⟩ initState
    (by simp [priorityEvents])

/-- C6: `scheduleRetry` is idempotent while a retry timer is armed: with
`retryTimeout` non-null the call returns at once, arming no second timer,
leaving the attempt counter and the whole state unchanged, and computing
no new delay. -/
theorem scheduleRetry_idempotent (s : SDKState) (h : s.retryTimeout = true) :
    scheduleRetry s = (s, none) := by
  simp [scheduleRetry, h]

theorem scheduleRetry_idempotent_witness :
    scheduleRetry ⟨[], [⟨"seeking", Json.null⟩], 3, true⟩ =
      (⟨[], [⟨"seeking", Json.null⟩], 3, true⟩, none) :=
  scheduleRetry_idempotent ⟨[], [⟨"seeking", Json.null⟩], 3, true⟩ rfl

/-- C10: On page teardown, if both queues are empty no beacon is sent at
all (so the synthetic `pageUnload` event is never emitted); otherwise the
beacon payload is exactly the pending events, then the retry events, then
one final `pageUnload` event. -/
theorem handlePageUnload_beacon (s : SDKState) (p : Json) :
    (s.eventQueue = [] → s.retryQueue = [] → handlePageUnload s p = none) ∧
    (s.eventQueue ++ s.retryQueue ≠ [] →
      handlePageUnload s p =
        some (s.eventQueue ++ s.retryQueue ++ [⟨"pageUnload", p⟩])) := by
  constructor
  · intro h1 h2
    simp [handlePageUnload, h1, h2]
  · intro h
    simp [handlePageUnload, List.isEmpty_iff, h]

theorem handlePageUnload_beacon_witness :
    handlePageUnload initState Json.null = none ∧
    handlePageUnload ⟨[⟨"waiting", Json.null⟩], [], 0, false⟩ Json.null =
      some ([⟨"waiting", Json.null⟩] ++ [] ++ [⟨"pageUnload", Json.null⟩]) :=
  ⟨(handlePageUnload_beacon initState Json.null).1 rfl rfl,
    (handlePageUnload_beacon ⟨[⟨"waiting", Json.null⟩], [], 0, false⟩
      Json.null).2 (by simp)⟩

/-- C5 counterexample: the `timeupdate` handler requires strictly more
than 500 ms since the last accepted tick (`now - last > 500`), so a tick
exactly 500 ms after the last accepted one is rejected even though its
random draw passes — refuting the claim that a passing draw 500 ms after
the last accepted tick is accepted ("at least 500 ms"). -/
theorem onTimeupdate_rejects_exact_500 :
    (0 : Rat) < defaultConfig.sampleRateTimeupdate ∧
    (500 : Int) - (0 : Int) ≥ 500 ∧
    (onTimeupdate defaultConfig 0 500 ⟨"v", 0⟩).2 = false := by
  refine ⟨by norm_num [defaultConfig], by norm_num, ?_⟩
  norm_num [onTimeupdate]

/-- C5 amended: a `timeupdate` tick is accepted iff the random draw is
below `sampleRate.timeupdate` AND strictly more than 500 ms have elapsed
since the last accepted tick for that player; consequently two ticks
spaced 500 ms or less apart (in particular less than 500 ms apart) are
never both accepted even if both draws pass. -/
theorem onTimeupdate_sampling (cfg : Config) (r1 r2 : Rat) (t1 t2 : Int)
    (pd : PlayerData) :
    ((onTimeupdate cfg r1 t1 pd).2 = true ↔
      r1 < cfg.sampleRateTimeupdate ∧ 500 < t1 - pd.lastTimeupdateTracked) ∧
    ((onTimeupdate cfg r1 t1 pd).2 = true → t2 - t1 ≤ 500 →
      (onTimeupdate cfg r2 t2 (onTimeupdate cfg r1 t1 pd).1).2 = false) := by
  by_cases h : r1 < cfg.sampleRateTimeupdate ∧ 500 < t1 - pd.lastTimeupdateTracked
  · refine ⟨by simp [onTimeupdate, h], ?_⟩
    intro _ hgap
    have hlt : ¬ (500 < t2 - t1) := by omega
    simp [onTimeupdate, h, hlt]
  · refine ⟨by simp [onTimeupdate, h], ?_⟩
    intro hacc
    simp [onTimeupdate, h] at hacc

theorem onTimeupdate_sampling_witness :
    ((onTimeupdate defaultConfig 0 501 ⟨"v", 0⟩).2 = true ↔
      (0 : Rat) < defaultConfig.sampleRateTimeupdate ∧
        (500 : Int) < 501 - (⟨"v", 0⟩ : PlayerData).lastTimeupdateTracked) ∧
    ((onTimeupdate defaultConfig 0 501 ⟨"v", 0⟩).2 = true →
      (900 : Int) - 501 ≤ 500 →
      (onTimeupdate defaultConfig 0 900
        (onTimeupdate defaultConfig 0 501 ⟨"v", 0⟩).1).2 = false) :=
  onTimeupdate_sampling defaultConfig 0 0 501 900 ⟨"v", 0⟩

/-- A serialized retry batch as the SDK function `attemptRetry` produces it,
carrying a `"retryAttempt"` member. -/
def retryBatchFields : List (String × Json) :=
  [("clientId", Json.str "c1"), ("apiKey", Json.str "k1"),
   ("sessionId", Json.str "s1"), ("batchId", Json.str "b1"),
   ("events", Json.arr []), ("timestamp", Json.str "t1"),
   ("isRetry", Json.bool true), ("retryAttempt", Json.num 3)]

/-- C7 counterexample: the Go `models.EventBatch` struct declares no
`retryAttempt` field, so a batch JSON carrying `"retryAttempt": 3` parses
successfully but re-serializing the parsed value emits no `retryAttempt`
member — the serialize/parse round trip is not field-for-field equal on
`retryAttempt`, refuting the field list of the claim. -/
theorem roundtrip_drops_retryAttempt :
    decodeEventBatch (Json.obj retryBatchFields) =
      some ⟨"c1", "k1", "s1", "b1", [], "t1", true⟩ ∧
    encodeEventBatch ⟨"c1", "k1", "s1", "b1", [], "t1", true⟩ =
      Json.obj [("clientId", Json.str "c1"), ("apiKey", Json.str "k1"),
        ("sessionId", Json.str "s1"), ("batchId", Json.str "b1"),
        ("events", Json.arr []), ("timestamp", Json.str "t1"),
        ("isRetry", Json.bool true)] ∧
    jsonLookup retryBatchFields "retryAttempt" = some (Json.num 3) ∧
    jsonLookup [("clientId", Json.str "c1"), ("apiKey", Json.str "k1"),
        ("sessionId", Json.str "s1"), ("batchId", Json.str "b1"),
        ("events", Json.arr []), ("timestamp", Json.str "t1"),
        ("isRetry", Json.bool true)] "retryAttempt" = none :=
  ⟨rfl, rfl, rfl, rfl⟩

/-- C7 amended: serializing an `EventBatch` to JSON and parsing it back
yields field-for-field equality on every field the model declares —
clientId, apiKey, sessionId, batchId, events (in order), timestamp and
isRetry; in particular batchId does not change across one serialize/parse
round trip.  (`retryAttempt` is not a field of the Go struct and is
dropped by parsing.) -/
theorem eventBatch_roundtrip (b : EventBatch) :
    decodeEventBatch (encodeEventBatch b) = some b := by
  obtain ⟨cid, key, sid, bid, es, ts, retry⟩ := b
  cases retry
  · simp only [encodeEventBatch, if_neg Bool.false_ne_true]
    simp [decodeEventBatch, getStr, getArr, getBool, jsonLookup,
      mapM_loop_decode_encode]
  · simp only [encodeEventBatch, if_pos rfl]
    simp [decodeEventBatch, getStr, getArr, getBool, jsonLookup,
      mapM_loop_decode_encode]

/-- A run of `trackEvent` calls below the batch-size threshold never
flushes: the events accumulate on the pending queue. -/
theorem trackMany_below_batchSize (cfg : Config) (es : List JSEvent)
    (s : SDKState) (hp : ∀ e ∈ es, e.eventName ∉ priorityEvents)
    (hlen : s.eventQueue.length + es.length < cfg.batchSize) :
    trackMany cfg es s = ({ s with eventQueue := s.eventQueue ++ es }, []) := by
  induction es generalizing s with
  | nil => simp [trackMany]
  | cons e rest ih =>
      have hpe : e.eventName ∉ priorityEvents := hp e (List.mem_cons_self e rest)
      have hsz : ¬ cfg.batchSize ≤ s.eventQueue.length + 1 := by
        simp at hlen
        omega
      have step : trackEvent cfg e s =
          ({ s with eventQueue := s.eventQueue ++ [e] }, none) := by
        simp [trackEvent, hpe, hsz]
      have ihh := ih { s with eventQueue := s.eventQueue ++ [e] }
        (fun x hx => hp x (List.mem_cons_of_mem e hx))
        (by simp at hlen ⊢; omega)
      simp [trackMany, step, ihh]

/-- C4: Starting from an empty pending queue, a sequence of at most
`batchSize - 1` non-priority enqueues causes no flush at all (the events
just accumulate until the periodic timer fires), and for a non-priority
enqueue the size-based trigger fires exactly when the queue length after
the append reaches `batchSize`. -/
theorem trackEvent_size_trigger (cfg : Config) :
    (∀ (es : List JSEvent) (s : SDKState), s.eventQueue = [] →
      (∀ e ∈ es, e.eventName ∉ priorityEvents) →
      0 < cfg.batchSize → es.length ≤ cfg.batchSize - 1 →
      trackMany cfg es s = ({ s with eventQueue := es }, [])) ∧
    (∀ (e : JSEvent) (s : SDKState), e.eventName ∉ priorityEvents →
      ((trackEvent cfg e s).2 ≠ none ↔
        cfg.batchSize ≤ s.eventQueue.length + 1)) := by
  constructor
  · intro es s hq hp hbs hlen
    have h := trackMany_below_batchSize cfg es s hp (by rw [hq]; simp; omega)
    rw [hq] at h
    simpa using h
  · intro e s hpe
    by_cases hsz : cfg.batchSize ≤ s.eventQueue.length + 1
    · simp [trackEvent, hpe, hsz, sendBatchStart]
    · simp [trackEvent, hpe, hsz]

theorem trackEvent_size_trigger_witness :
    trackMany defaultConfig [⟨"seeking", Json.null⟩] initState =
      ({ initState with eventQueue := [⟨"seeking", Json.null⟩] }, []) ∧
    ((trackEvent defaultConfig ⟨"seeking", Json.null⟩ initState).2 ≠ none ↔
      defaultConfig.batchSize ≤ initState.eventQueue.length + 1) :=
  ⟨(trackEvent_size_trigger defaultConfig).1 [⟨"seeking", Json.null⟩] initState
      rfl (by simp [priorityEvents]) (by decide) (by decide),
    (trackEvent_size_trigger defaultConfig).2 ⟨"seeking", Json.null⟩ initState
      (by simp [priorityEvents])⟩

/-! ### The retry-exhaustion invariant (C2) -/

/-- Invariant of the delivery core over event-loop steps: the shared
attempt counter never exceeds 5; between steps the counter is nonzero only
while a retry timer is armed; and an armed timer always has events waiting
in the retry queue (the timer is only ever armed right after pushing the
failed events). -/
def DeliveryInv (s : SDKState) : Prop :=
  s.retryAttempt ≤ 5 ∧ (s.retryTimeout = false → s.retryAttempt = 0) ∧
  (s.retryTimeout = true → s.retryQueue ≠ [])

theorem inv_onSendSuccess (s : SDKState) (h : DeliveryInv s) :
    DeliveryInv (onSendSuccess s) :=
  ⟨Nat.zero_le _, fun _ => rfl, h.2.2⟩

theorem inv_onSendFailure (evs : List JSEvent) (s : SDKState)
    (h : DeliveryInv s) (hevs : evs ≠ []) :
    DeliveryInv (onSendFailure evs s) := by
  obtain ⟨h1, h2, h3⟩ := h
  by_cases ht : s.retryTimeout = true
  · have heq : onSendFailure evs s =
        ⟨s.eventQueue, s.retryQueue ++ evs, s.retryAttempt, s.retryTimeout⟩ := by
      simp [onSendFailure, scheduleRetry, ht]
    rw [heq]
    exact ⟨h1, fun hf => h2 hf, fun _ => by simp [hevs]⟩
  · have ht' : s.retryTimeout = false := by simpa using ht
    have heq : onSendFailure evs s =
        ⟨s.eventQueue, s.retryQueue ++ evs, s.retryAttempt + 1, true⟩ := by
      simp [onSendFailure, scheduleRetry, ht']
    rw [heq]
    have h0 : s.retryAttempt = 0 := h2 ht'
    exact ⟨by show s.retryAttempt + 1 ≤ 5; omega, fun hf => by simp at hf,
      fun _ => by simp [hevs]⟩

theorem inv_flush (o : SendOutcome) (s : SDKState) (h : DeliveryInv s) :
    DeliveryInv (flushOutcome o (sendBatchStart s)) := by
  unfold sendBatchStart
  by_cases hq : s.eventQueue.isEmpty
  · simpa [hq, flushOutcome] using h
  · cases o
    · simpa [hq, flushOutcome] using inv_onSendSuccess _ h
    · simpa [hq, flushOutcome] using
        inv_onSendFailure s.eventQueue ⟨[], s.retryQueue, s.retryAttempt,
          s.retryTimeout⟩ h (by simpa [List.isEmpty_iff] using hq)

theorem inv_retryCycle (o : SendOutcome) (s : SDKState) (h : DeliveryInv s)
    (ht : s.retryTimeout = true) :
    DeliveryInv (retryOutcome o (attemptRetryStart (timerFire s))) := by
  obtain ⟨h1, h2, h3⟩ := h
  have hne : s.retryQueue ≠ [] := h3 ht
  have hq : s.retryQueue.isEmpty = false := by simpa [List.isEmpty_iff] using hne
  have hstart : attemptRetryStart (timerFire s) =
      (⟨s.eventQueue, [], s.retryAttempt, false⟩, some s.retryQueue) := by
    simp [attemptRetryStart, timerFire, hq]
  rw [hstart]
  cases o
  · exact ⟨Nat.zero_le _, fun _ => rfl,
      fun hT => by simp [retryOutcome, onRetrySuccess] at hT⟩
  · show DeliveryInv (onRetryFailure s.retryQueue
      ⟨s.eventQueue, [], s.retryAttempt, false⟩)
    by_cases h5 : 5 ≤ s.retryAttempt
    · have heq : onRetryFailure s.retryQueue
          ⟨s.eventQueue, [], s.retryAttempt, false⟩ =
          ⟨s.eventQueue, [], 0, false⟩ := by
        simp [onRetryFailure, h5]
      rw [heq]
      exact ⟨Nat.zero_le _, fun _ => rfl, fun hT => by simp at hT⟩
    · have heq : onRetryFailure s.retryQueue
          ⟨s.eventQueue, [], s.retryAttempt, false⟩ =
          ⟨s.eventQueue, s.retryQueue, s.retryAttempt + 1, true⟩ := by
        simp [onRetryFailure, h5, scheduleRetry]
      rw [heq]
      exact ⟨by show s.retryAttempt + 1 ≤ 5; omega, fun hf => by simp at hf,
        fun _ => hne⟩

theorem step_preserves_inv {s t : SDKState} (h : DeliveryInv s)
    (hs : SeqStep s t) : DeliveryInv t := by
  cases hs with
  | track cfg e o =>
      unfold trackEvent
      by_cases hc : priorityEvents.contains e.eventName ∨
          cfg.batchSize ≤ (s.eventQueue ++ [e]).length
      · rw [if_pos hc]
        exact inv_flush o ⟨s.eventQueue ++ [e], s.retryQueue, s.retryAttempt,
          s.retryTimeout⟩ h
      · rw [if_neg hc]
        exact h
  | timerFlush o => exact inv_flush o s h
  | retryTimer o =>
      rename_i hT
      exact inv_retryCycle o s h hT

theorem reachable_inv (s : SDKState) (h : SeqReachable s) : DeliveryInv s := by
  induction h with
  | init => exact ⟨Nat.zero_le _, fun _ => rfl, fun hT => by simp [initState] at hT⟩
  | step _ hs ih => exact step_preserves_inv ih hs

/-- A chain of event-loop steps starting at a reachable state ends at a
reachable state. -/
theorem loopReachable_trans {t t' : LoopState} (h : LoopReachable t)
    (hs : Relation.ReflTransGen LoopStep t t') : LoopReachable t' := by
  induction hs with
  | refl => exact h
  | tail _ hstep ih => exact LoopReachable.step ih hstep

/-- Every sequential task is realized by one or two consecutive event-loop
tasks (the issuing task, then — when a send was issued — the immediate
delivery of its completion), leaving the outstanding-send lists as they
were. -/
theorem seqStep_loop {s s' : SDKState} (hs : SeqStep s s')
    (P R : List (List JSEvent)) :
    Relation.ReflTransGen LoopStep ⟨s, P, R⟩ ⟨s', P, R⟩ := by
  cases hs with
  | track cfg e o =>
      have h1 := LoopStep.track cfg e ⟨s, P, R⟩
      match hsnap : (trackEvent cfg e s).2 with
      | none =>
          have ha : applyTrack cfg e ⟨s, P, R⟩ =
              ⟨(trackEvent cfg e s).1, P, R⟩ := by
            simp [applyTrack, hsnap]
          have hb : flushOutcome o (trackEvent cfg e s) =
              (trackEvent cfg e s).1 := by
            simp [flushOutcome, hsnap]
          rw [ha] at h1
          rw [hb]
          exact Relation.ReflTransGen.single h1
      | some evs =>
          have ha : applyTrack cfg e ⟨s, P, R⟩ =
              ⟨(trackEvent cfg e s).1, P ++ [evs], R⟩ := by
            simp [applyTrack, hsnap]
          rw [ha] at h1
          have h2 := LoopStep.sendComplete o evs P []
            ⟨(trackEvent cfg e s).1, P ++ [evs], R⟩ rfl
          have hc : applySendComplete o evs P []
              ⟨(trackEvent cfg e s).1, P ++ [evs], R⟩ =
              ⟨flushOutcome o (trackEvent cfg e s), P, R⟩ := by
            cases o <;>
              simp [applySendComplete, flushOutcome, hsnap, onSendSuccess]
          rw [hc] at h2
          exact Relation.ReflTransGen.head h1 (Relation.ReflTransGen.single h2)
  | timerFlush o =>
      have h1 := LoopStep.timerFlush ⟨s, P, R⟩
      match hsnap : (sendBatchStart s).2 with
      | none =>
          have ha : applyTimerFlush ⟨s, P, R⟩ =
              ⟨(sendBatchStart s).1, P, R⟩ := by
            simp [applyTimerFlush, hsnap]
          have hb : flushOutcome o (sendBatchStart s) =
              (sendBatchStart s).1 := by
            simp [flushOutcome, hsnap]
          rw [ha] at h1
          rw [hb]
          exact Relation.ReflTransGen.single h1
      | some evs =>
          have ha : applyTimerFlush ⟨s, P, R⟩ =
              ⟨(sendBatchStart s).1, P ++ [evs], R⟩ := by
            simp [applyTimerFlush, hsnap]
          rw [ha] at h1
          have h2 := LoopStep.sendComplete o evs P []
            ⟨(sendBatchStart s).1, P ++ [evs], R⟩ rfl
          have hc : applySendComplete o evs P []
              ⟨(sendBatchStart s).1, P ++ [evs], R⟩ =
              ⟨flushOutcome o (sendBatchStart s), P, R⟩ := by
            cases o <;>
              simp [applySendComplete, flushOutcome, hsnap, onSendSuccess]
          rw [hc] at h2
          exact Relation.ReflTransGen.head h1 (Relation.ReflTransGen.single h2)
  | retryTimer o =>
      rename_i hT
      have h1 := LoopStep.retryTimer ⟨s, P, R⟩ hT
      match hsnap : (attemptRetryStart (timerFire s)).2 with
      | none =>
          have ha : applyRetryTimer ⟨s, P, R⟩ =
              ⟨(attemptRetryStart (timerFire s)).1, P, R⟩ := by
            simp [applyRetryTimer, hsnap]
          have hb : retryOutcome o (attemptRetryStart (timerFire s)) =
              (attemptRetryStart (timerFire s)).1 := by
            simp [retryOutcome, hsnap]
          rw [ha] at h1
          rw [hb]
          exact Relation.ReflTransGen.single h1
      | some evs =>
          have ha : applyRetryTimer ⟨s, P, R⟩ =
              ⟨(attemptRetryStart (timerFire s)).1, P, R ++ [evs]⟩ := by
            simp [applyRetryTimer, hsnap]
          rw [ha] at h1
          have h2 := LoopStep.retryComplete o evs R []
            ⟨(attemptRetryStart (timerFire s)).1, P, R ++ [evs]⟩ rfl
          have hc : applyRetryComplete o evs R []
              ⟨(attemptRetryStart (timerFire s)).1, P, R ++ [evs]⟩ =
              ⟨retryOutcome o (attemptRetryStart (timerFire s)), P, R⟩ := by
            cases o <;>
              simp [applyRetryComplete, retryOutcome, hsnap, onRetrySuccess]
          rw [hc] at h2
          exact Relation.ReflTransGen.head h1 (Relation.ReflTransGen.single h2)

/-- Sequentially reachable SDK states are reachable states of the event
loop, with no send left outstanding. -/
theorem seqReachable_loop {s : SDKState} (h : SeqReachable s) :
    LoopReachable ⟨s, [], []⟩ := by
  induction h with
  | init => exact LoopReachable.init
  | step _ hs ih => exact loopReachable_trans ih (seqStep_loop hs [] [])

/-- C2 counterexample: the attempt counter does exceed 5 in a legal
event-loop execution.  One event fails, and its retry fails four times in
a row, leaving the counter at 5 with the timer armed; the fifth retry
timer fires, opening an in-flight window with the counter at 5 and
`retryTimeout` null; a priority event tracked in that window flushes, its
batch send fails, and that completion runs `scheduleRetry` with no timer
armed, driving the shared counter to 6 before the in-flight retry ever
completes. -/
theorem retryAttempt_reaches_six :
    LoopReachable ⟨⟨[], [⟨"pause", Json.null⟩], 6, true⟩, [],
      [[⟨"play", Json.null⟩]]⟩ ∧
    5 < (⟨[], [⟨"pause", Json.null⟩], 6, true⟩ : SDKState).retryAttempt := by
  constructor
  · have t1 : LoopReachable ⟨⟨[], [], 0, false⟩,
        [[⟨"play", Json.null⟩]], []⟩ :=
      LoopReachable.init.step
        (LoopStep.track defaultConfig ⟨"play", Json.null⟩ ⟨initState, [], []⟩)
    have t2 : LoopReachable ⟨⟨[], [⟨"play", Json.null⟩], 1, true⟩, [], []⟩ :=
      t1.step (LoopStep.sendComplete SendOutcome.fail [⟨"play", Json.null⟩]
        [] [] ⟨⟨[], [], 0, false⟩, [[⟨"play", Json.null⟩]], []⟩ rfl)
    have t3 : LoopReachable ⟨⟨[], [], 1, false⟩, [],
        [[⟨"play", Json.null⟩]]⟩ :=
      t2.step (LoopStep.retryTimer
        ⟨⟨[], [⟨"play", Json.null⟩], 1, true⟩, [], []⟩ rfl)
    have t4 : LoopReachable ⟨⟨[], [⟨"play", Json.null⟩], 2, true⟩, [], []⟩ :=
      t3.step (LoopStep.retryComplete SendOutcome.fail [⟨"play", Json.null⟩]
        [] [] ⟨⟨[], [], 1, false⟩, [], [[⟨"play", Json.null⟩]]⟩ rfl)
    have t5 : LoopReachable ⟨⟨[], [], 2, false⟩, [],
        [[⟨"play", Json.null⟩]]⟩ :=
      t4.step (LoopStep.retryTimer
        ⟨⟨[], [⟨"play", Json.null⟩], 2, true⟩, [], []⟩ rfl)
    have t6 : LoopReachable ⟨⟨[], [⟨"play", Json.null⟩], 3, true⟩, [], []⟩ :=
      t5.step (LoopStep.retryComplete SendOutcome.fail [⟨"play", Json.null⟩]
        [] [] ⟨⟨[], [], 2, false⟩, [], [[⟨"play", Json.null⟩]]⟩ rfl)
    have t7 : LoopReachable ⟨⟨[], [], 3, false⟩, [],
        [[⟨"play", Json.null⟩]]⟩ :=
      t6.step (LoopStep.retryTimer
        ⟨⟨[], [⟨"play", Json.null⟩], 3, true⟩, [], []⟩ rfl)
    have t8 : LoopReachable ⟨⟨[], [⟨"play", Json.null⟩], 4, true⟩, [], []⟩ :=
      t7.step (LoopStep.retryComplete SendOutcome.fail [⟨"play", Json.null⟩]
        [] [] ⟨⟨[], [], 3, false⟩, [], [[⟨"play", Json.null⟩]]⟩ rfl)
    have t9 : LoopReachable ⟨⟨[], [], 4, false⟩, [],
        [[⟨"play", Json.null⟩]]⟩ :=
      t8.step (LoopStep.retryTimer
        ⟨⟨[], [⟨"play", Json.null⟩], 4, true⟩, [], []⟩ rfl)
    have t10 : LoopReachable ⟨⟨[], [⟨"play", Json.null⟩], 5, true⟩, [], []⟩ :=
      t9.step (LoopStep.retryComplete SendOutcome.fail [⟨"play", Json.null⟩]
        [] [] ⟨⟨[], [], 4, false⟩, [], [[⟨"play", Json.null⟩]]⟩ rfl)
    have t11 : LoopReachable ⟨⟨[], [], 5, false⟩, [],
        [[⟨"play", Json.null⟩]]⟩ :=
      t10.step (LoopStep.retryTimer
        ⟨⟨[], [⟨"play", Json.null⟩], 5, true⟩, [], []⟩ rfl)
    have t12 : LoopReachable ⟨⟨[], [], 5, false⟩, [[⟨"pause", Json.null⟩]],
        [[⟨"play", Json.null⟩]]⟩ :=
      t11.step (LoopStep.track defaultConfig ⟨"pause", Json.null⟩
        ⟨⟨[], [], 5, false⟩, [], [[⟨"play", Json.null⟩]]⟩)
    exact t12.step (LoopStep.sendComplete SendOutcome.fail
      [⟨"pause", Json.null⟩] [] [] ⟨⟨[], [], 5, false⟩,
        [[⟨"pause", Json.null⟩]], [[⟨"play", Json.null⟩]]⟩ rfl)
  · decide

/-- C2 amended: when a retry attempt performed with the shared counter at
5 or more fails, the failed events are dropped — `onRetryFailure` returns
the state with only the counter reset to 0, so the retry queue is NOT
extended with the failed events and the timer field is untouched: no
further cycle is scheduled for them.  The bound "the attempt counter never
exceeds 5" holds for every state reachable under the sequential schedule,
in which each transport completion is delivered immediately after the task
that issued the send; every such sequential execution is a legal
event-loop execution.  (Off that schedule the bound fails: see the
counterexample, where a batch-send failure completing inside the in-flight
window of the fifth retry drives the counter to 6.) -/
theorem retry_exhaustion :
    (∀ (evs : List JSEvent) (s : SDKState), 5 ≤ s.retryAttempt →
      onRetryFailure evs s = { s with retryAttempt := 0 }) ∧
    (∀ s : SDKState, SeqReachable s → s.retryAttempt ≤ 5) ∧
    (∀ s : SDKState, SeqReachable s → LoopReachable ⟨s, [], []⟩) := by
  refine ⟨?_, ?_, ?_⟩
  · intro evs s h5
    simp [onRetryFailure, h5]
  · intro s h
    exact (reachable_inv s h).1
  · intro s h
    exact seqReachable_loop h

theorem retry_exhaustion_witness :
    onRetryFailure [⟨"pause", Json.null⟩] ⟨[], [], 5, false⟩ =
      { (⟨[], [], 5, false⟩ : SDKState) with retryAttempt := 0 } ∧
    initState.retryAttempt ≤ 5 ∧
    LoopReachable ⟨initState, [], []⟩ :=
  ⟨retry_exhaustion.1 [⟨"pause", Json.null⟩] ⟨[], [], 5, false⟩ (Nat.le_refl 5),
    retry_exhaustion.2.1 initState SeqReachable.init,
    retry_exhaustion.2.2 initState SeqReachable.init⟩

/-- C8 counterexample: a POST with a malformed JSON body sent to the
beacon endpoint does not get status 400 — `HandleBeacons` only logs the
decode error and returns without calling `http.Error`, so Go sends the
implicit 200 with an empty body. -/
theorem beacon_malformed_not_400 :
    (HandleBeacons ⟨"POST", none⟩ ⟨[], 0, 10⟩).1 = ⟨200, RespBody.empty⟩ ∧
    (HandleBeacons ⟨"POST", none⟩ ⟨[], 0, 10⟩).1.status ≠ 400 :=
  ⟨rfl, by decide⟩

/-- C8 amended: for every inbound request, a method other than POST yields
405 on both endpoints; a POST with a malformed body yields 400 on the
synchronous endpoint but the implicit 200 with empty body on the beacon
endpoint (the decode error is only logged there); a successfully logged
POST yields 200 with the JSON `{status, message}` ack on the synchronous
endpoint and 204 with empty body on the beacon endpoint. -/
theorem handler_statuses (r : Request) (st : LogState) :
    (r.method ≠ "POST" →
      HandleEvents r st = (⟨405, RespBody.text "Method not allowed"⟩, st) ∧
      HandleBeacons r st = (⟨405, RespBody.text "Method not allowed"⟩, st)) ∧
    (r.method = "POST" → decodeBody r = none →
      HandleEvents r st = (⟨400, RespBody.text "Invalid request body"⟩, st) ∧
      HandleBeacons r st = (⟨200, RespBody.empty⟩, st)) ∧
    (∀ (batch : EventBatch) (st1 : LogState), r.method = "POST" →
      decodeBody r = some batch → LogBatch batch st = (st1, true) →
      HandleEvents r st = (⟨200, RespBody.jsonAck "success"
        ("Processed " ++ toString batch.events.length ++ " events")⟩, st1) ∧
      HandleBeacons r st = (⟨204, RespBody.empty⟩, st1)) := by
  refine ⟨?_, ?_, ?_⟩
  · intro hm
    constructor <;> simp [HandleEvents, HandleBeacons, hm]
  · intro hm hd
    constructor <;> simp [HandleEvents, HandleBeacons, hm, hd]
  · intro batch st1 hm hd hlog
    constructor <;> simp [HandleEvents, HandleBeacons, hm, hd, hlog]

theorem handler_statuses_witness :
    (HandleEvents ⟨"GET", none⟩ ⟨[], 0, 10⟩ =
        (⟨405, RespBody.text "Method not allowed"⟩, ⟨[], 0, 10⟩) ∧
      HandleBeacons ⟨"GET", none⟩ ⟨[], 0, 10⟩ =
        (⟨405, RespBody.text "Method not allowed"⟩, ⟨[], 0, 10⟩)) ∧
    (HandleEvents ⟨"POST", none⟩ ⟨[], 0, 10⟩ =
        (⟨400, RespBody.text "Invalid request body"⟩, ⟨[], 0, 10⟩) ∧
      HandleBeacons ⟨"POST", none⟩ ⟨[], 0, 10⟩ =
        (⟨200, RespBody.empty⟩, ⟨[], 0, 10⟩)) ∧
    (HandleEvents ⟨"POST", some (encodeEventBatch ⟨"c", "k", "s", "b", [], "t", false⟩)⟩
        ⟨[], 0, 10⟩ =
        (⟨200, RespBody.jsonAck "success" ("Processed " ++
          toString (⟨"c", "k", "s", "b", [], "t", false⟩ : EventBatch).events.length
          ++ " events")⟩, ⟨[LogRecord.header "c" "s" "b"], 1, 10⟩) ∧
      HandleBeacons ⟨"POST", some (encodeEventBatch ⟨"c", "k", "s", "b", [], "t", false⟩)⟩
        ⟨[], 0, 10⟩ = (⟨204, RespBody.empty⟩, ⟨[LogRecord.header "c" "s" "b"], 1, 10⟩)) :=
  ⟨(handler_statuses ⟨"GET", none⟩ ⟨[], 0, 10⟩).1 (by decide),
    (handler_statuses ⟨"POST", none⟩ ⟨[], 0, 10⟩).2.1 rfl rfl,
    (handler_statuses ⟨"POST", some (encodeEventBatch ⟨"c", "k", "s", "b", [], "t", false⟩)⟩
        ⟨[], 0, 10⟩).2.2 ⟨"c", "k", "s", "b", [], "t", false⟩
      ⟨[LogRecord.header "c" "s" "b"], 1, 10⟩ rfl rfl rfl⟩

/-- The loop of `LogBatch` stops at the first failed write: with the
device failing from write index `st.written + 2 * i` on, the first `i`
events are fully logged, the JSON write of event `i` fails, and nothing is
rolled back. -/
theorem logEvents_firstError (i : Nat) (es : List Event) (st : LogState)
    (hi : i < es.length) (hf : st.failAt = st.written + 2 * i) :
    logEvents es st =
      (⟨st.records ++
          ((es.take i).flatMap fun e => [LogRecord.eventJson e, LogRecord.lineBreaks]),
        st.written + 2 * i + 1, st.failAt⟩, false) := by
  induction i generalizing es st with
  | zero =>
      match es with
      | [] => simp at hi
      | e :: rest =>
          have hw : ¬ st.written < st.failAt := by omega
          simp [logEvents, logEvent, logWrite, hw]
  | succ j ih =>
      match es with
      | [] => simp at hi
      | e :: rest =>
          have hw1 : st.written < st.failAt := by omega
          have hw2 : st.written + 1 < st.failAt := by omega
          have step : logEvent e st =
              (⟨st.records ++ [LogRecord.eventJson e, LogRecord.lineBreaks],
                st.written + 2, st.failAt⟩, true) := by
            simp [logEvent, logWrite, hw1, hw2]
          have ihh := ih rest ⟨st.records ++
              [LogRecord.eventJson e, LogRecord.lineBreaks],
              st.written + 2, st.failAt⟩ (by simpa using hi) (by simp; omega)
          simp [logEvents, step, ihh]
          omega

/-- C9: batch ingestion is not atomic.  `LogBatch` first appends the batch
header, then the events in order, stopping at the first write error: if
the first failing write is the JSON write of event `i` (the device fails from
write index `st.written + 1 + 2 * i` on), the header and the full records
of events `0..i-1` remain appended to the log, and the synchronous handler
returns status 500 with that truncated log state — nothing is rolled back. -/
theorem logBatch_not_atomic (r : Request) (batch : EventBatch) (st : LogState)
    (i : Nat) (hm : r.method = "POST") (hb : decodeBody r = some batch)
    (hi : i < batch.events.length)
    (hf : st.failAt = st.written + 1 + 2 * i) :
    HandleEvents r st =
      (⟨500, RespBody.text "Internal server error"⟩,
        ⟨st.records ++
            [LogRecord.header batch.clientId batch.sessionId batch.batchId] ++
            ((batch.events.take i).flatMap fun e =>
              [LogRecord.eventJson e, LogRecord.lineBreaks]),
          st.written + 2 * i + 2, st.failAt⟩) := by
  have hw : st.written < st.failAt := by omega
  have hhdr : logWrite (LogRecord.header batch.clientId batch.sessionId
      batch.batchId) st =
      (⟨st.records ++ [LogRecord.header batch.clientId batch.sessionId
        batch.batchId], st.written + 1, st.failAt⟩, true) := by
    simp [logWrite, hw]
  have hev := logEvents_firstError i batch.events ⟨st.records ++
      [LogRecord.header batch.clientId batch.sessionId batch.batchId],
      st.written + 1, st.failAt⟩ hi (by simp; omega)
  have hlog : LogBatch batch st =
      (⟨st.records ++
          [LogRecord.header batch.clientId batch.sessionId batch.batchId] ++
          ((batch.events.take i).flatMap fun e =>
            [LogRecord.eventJson e, LogRecord.lineBreaks]),
        st.written + 2 * i + 2, st.failAt⟩, false) := by
    simp [LogBatch, hhdr, hev]
    omega
  simp [HandleEvents, hm, hb, hlog]

theorem logBatch_not_atomic_witness :
    HandleEvents ⟨"POST", some (encodeEventBatch
        ⟨"c1", "k1", "s1", "b1",
          [⟨"play", "v1", "ts1", "s1", "", "anon", [], [], [], ""⟩,
            ⟨"pause", "v1", "ts2", "s1", "", "anon", [], [], [], ""⟩],
          "t1", false⟩)⟩ ⟨[], 0, 3⟩ =
      (⟨500, RespBody.text "Internal server error"⟩,
        ⟨[LogRecord.header "c1" "s1" "b1",
          LogRecord.eventJson ⟨"play", "v1", "ts1", "s1", "", "anon", [], [], [], ""⟩,
          LogRecord.lineBreaks], 4, 3⟩) := by
  have h := logBatch_not_atomic ⟨"POST", some (encodeEventBatch
      ⟨"c1", "k1", "s1", "b1",
        [⟨"play", "v1", "ts1", "s1", "", "anon", [], [], [], ""⟩,
          ⟨"pause", "v1", "ts2", "s1", "", "anon", [], [], [], ""⟩],
        "t1", false⟩)⟩
    ⟨"c1", "k1", "s1", "b1",
      [⟨"play", "v1", "ts1", "s1", "", "anon", [], [], [], ""⟩,
        ⟨"pause", "v1", "ts2", "s1", "", "anon", [], [], [], ""⟩],
      "t1", false⟩ ⟨[], 0, 3⟩ 1 rfl rfl (by decide) (by decide)
  simpa using h
